import Mathlib

/-!
Verification of the `dnscrypt` package (files `serversInfo.go` and
`plugins.go`) against its natural-language specification.

The Go code is shallowly embedded: each Go function used by a claim is
translated into an executable Lean definition over explicit state.  External
collaborators (the transport's `fetchServerInfo`, stamp parsing, address
resolution, DNS message packing, the policy modules' `Eval`) are passed in as
function parameters ("oracles"), mirroring the interfaces the Go code consumes.
The EWMA moving average comes from a third-party library that is not part of
this repository, so it is modelled from the spec (see `Ewma`).  Machine `int`
values are modelled as `Int`, float64 values as `Rat`, byte slices as
`List Nat`, and `time.Time` instants as `Rat` seconds.
-/

namespace Dnscrypt

/-! ### Data model: stamps, registered servers, live servers -/

/-- Stamp protocol, from `stamps.StampProtoType` as used by `serversInfo.go`
(`DNSCrypt`, `DoH`, `DNSCryptRelay`; `other` stands for any further value). -/
inductive StampProto where
  | dnsCrypt
  | doH
  | dnsCryptRelay
  | other
deriving DecidableEq, Repr

/-- The fields of `stamps.ServerStamp` that `serversInfo.go` reads.  Certificate
pins (`Hashes`) are byte strings, modelled as `List Nat`. -/
structure ServerStamp where
  proto : StampProto
  serverAddrStr : String
  providerName : String
  path : String
  hashes : List (List Nat)
deriving DecidableEq, Repr

/-- Go struct `RegisteredServer` (`serversInfo.go` line 28). -/
structure RegisteredServer where
  name : String
  stamp : ServerStamp
  description : String
deriving DecidableEq, Repr

/-- Modelled from the spec: the third-party EWMA moving average
(`github.com/VividCortex/ewma`) is not part of this repository.  The spec
describes it as the standard Brown moving average
`value <- (value*(N-1) + sample)/N` with `N = 10` (the decay passed in
`serversInfo.go` as `RTTEwmaDecay`), with a negative value as the sentinel
"no measurement yet" state. -/
structure Ewma where
  value : Rat
deriving DecidableEq, Repr

/-- Modelled from the spec: a freshly created moving average holds the negative
sentinel. -/
def Ewma.new : Ewma := ⟨-1⟩

/-- Modelled from the spec: `Set` overwrites the average with the given value. -/
def Ewma.set (_ : Ewma) (v : Rat) : Ewma := ⟨v⟩

/-- Modelled from the spec: `Add` feeds a sample into the Brown moving average
with `N = 10`. -/
def Ewma.add (e : Ewma) (sample : Rat) : Ewma := ⟨(e.value * 9 + sample) / 10⟩

/-- The fields of Go struct `ServerInfo` (`serversInfo.go` line 34) that the
registry, refresh and estimator code reads and writes.  `lastActionTS` is an
instant in seconds. -/
structure ServerInfo where
  name : String
  initialRtt : Int
  rtt : Ewma
  lastActionTS : Rat
deriving DecidableEq, Repr

/-- Go struct `ServersInfo` (`serversInfo.go` line 66): the live pool `inner`
and the registry `registeredServers`.  The `RWMutex` is irrelevant in this
sequential model; load-balancing tunables are not read by the embedded code. -/
structure ServersInfoS where
  inner : List ServerInfo
  registeredServers : List RegisteredServer
deriving DecidableEq, Repr

/-! ### registerServer (`serversInfo.go` lines 78-90) -/

/-- The loop of `registerServer`: replace the first entry whose name matches,
else append the new entry. -/
def registerList (new : RegisteredServer) : List RegisteredServer → List RegisteredServer
  | [] => [new]
  | old :: rest =>
    if old.name = new.name then new :: rest else old :: registerList new rest

/-- Go `(serversInfo *ServersInfo) registerServer(name, stamp)`: add-or-replace
in the registry by name; the live pool is untouched.  The Go function always
returns `nil`, so no error component is modelled. -/
def registerServer (si : ServersInfoS) (name : String) (stamp : ServerStamp) :
    ServersInfoS :=
  { si with registeredServers :=
      registerList ⟨name, stamp, ""⟩ si.registeredServers }

/-! ### refreshServer (`serversInfo.go` lines 92-126) -/

/-- Whether some live-pool entry carries the given name (the loops at lines
95-100 and 113-119 compute exactly this). -/
def hasName (inner : List ServerInfo) (name : String) : Bool :=
  inner.any fun s => s.name == name

/-- The write-phase loop of `refreshServer`: replace the first live-pool entry
whose name matches. -/
def replaceInner (name : String) (new : ServerInfo) :
    List ServerInfo → List ServerInfo
  | [] => []
  | s :: rest =>
    if s.name = name then new :: rest else s :: replaceInner name new rest

/-- The transport's `fetchServerInfo(proxy, name, stamp, isNew)`, an external
collaborator passed as an oracle. -/
def FetchFn : Type :=
  String → ServerStamp → Bool → Except String ServerInfo

/-- Go `(serversInfo *ServersInfo) refreshServer(proxy, name, stamp)`.
Returns `none` for the `dlog.Fatalf` name-mismatch path (which terminates the
process), otherwise `some (state', err?)` where `err?` is the returned error.
On fetch error the state is returned untouched.  On success the fresh server's
`rtt` is a new moving average seeded (`Set`) with `initialRtt`; then the
live-pool slot for `name` is replaced in place, or, when the live pool lacked
the name, the server is appended to the live pool and `{name, stamp}` is
appended to the registry. -/
def refreshServer (fetch : FetchFn) (si : ServersInfoS) (name : String)
    (stamp : ServerStamp) : Option (ServersInfoS × Option String) :=
  let isNew := !hasName si.inner name
  match fetch name stamp isNew with
  | .error e => some (si, some e)
  | .ok newServer0 =>
    if name ≠ newServer0.name then
      none
    else
      let newServer :=
        { newServer0 with rtt := Ewma.new.set (newServer0.initialRtt : Rat) }
      if hasName si.inner name then
        some ({ si with inner := replaceInner name newServer si.inner }, none)
      else
        some ({ si with
                inner := si.inner ++ [newServer],
                registeredServers :=
                  si.registeredServers ++ [⟨name, stamp, ""⟩] }, none)

/-! ### refresh (`serversInfo.go` lines 128-157) -/

/-- The per-server loop of `refresh` over the registry snapshot.  `live` counts
successful attempts; the error variable is overwritten by every attempt, as in
the Go `if err = serversInfo.refreshServer(...); err == nil` line.  A `none`
result propagates the fatal path of `refreshServer`. -/
def refreshLoop (fetch : FetchFn) :
    List RegisteredServer → ServersInfoS → Nat → Option String →
    Option (ServersInfoS × Nat × Option String)
  | [], si, live, err => some (si, live, err)
  | r :: rest, si, live, _ =>
    match refreshServer fetch si r.name r.stamp with
    | none => none
    | some (si', some e) => refreshLoop fetch rest si' live (some e)
    | some (si', none) => refreshLoop fetch rest si' (live + 1) none

/-- Stable insertion of a server into a list: it is placed before the first
entry whose `initialRtt` is not strictly smaller. -/
def insertByRtt (a : ServerInfo) : List ServerInfo → List ServerInfo
  | [] => [a]
  | b :: l =>
    if b.initialRtt < a.initialRtt then b :: insertByRtt a l else a :: b :: l

/-- The `sort.SliceStable(inner, func(i, j) { return inner[i].initialRtt <
inner[j].initialRtt })` call at lines 141-143.  A stable sort by a total
preorder is unique as a function of its input, so it is embedded as stable
insertion sort over the same strict comparison. -/
def stableSortInner : List ServerInfo → List ServerInfo
  | [] => []
  | x :: xs => insertByRtt x (stableSortInner xs)

/-- Go `(serversInfo *ServersInfo) refresh(proxy)`: snapshot the registry, run
`refreshServer` for each entry, then stable-sort the live pool by ascending
`initialRtt`.  Returns `(state', liveServers, err)`; `none` is the fatal
path. -/
def refresh (fetch : FetchFn) (si : ServersInfoS) :
    Option (ServersInfoS × Nat × Option String) :=
  match refreshLoop fetch si.registeredServers si 0 none with
  | none => none
  | some (si', live, err) =>
    some ({ si' with inner := stableSortInner si'.inner }, live, err)

/-! ### estimatorUpdate (`serversInfo.go` lines 159-190) -/

/-- The body of `estimatorUpdate` up to (and excluding) the final
adjacent-swap pass.  `candidate` stands for the `rand.Intn(len(inner))` draw
and `now` for the current instant in seconds, both passed explicitly.  Returns
the updated pool together with the `partialSort` flag.  Mirrors the Go code:
read both EWMA values, seed the index-0 average with the candidate's value if
it is negative, then either swap the two slots (candidate strictly faster), or
feed the second-chance sample `MinF(MaxF(cRtt/2, bRtt*2), cRtt)` into the
candidate's average when `cRtt > 0`, `cRtt >= bRtt*4` and the candidate's last
action is more than sixty seconds old. -/
def estimatorCore (now : Rat) (inner : List ServerInfo) (candidate : Nat) :
    List ServerInfo × Bool :=
  if candidate = 0 then (inner, false)
  else
    match inner[candidate]?, inner[0]? with
    | some cand, some best0 =>
      let candidateRtt := cand.rtt.value
      let bestSeeded :=
        if best0.rtt.value < 0 then { best0 with rtt := best0.rtt.set candidateRtt }
        else best0
      let currentBestRtt :=
        if best0.rtt.value < 0 then candidateRtt else best0.rtt.value
      let inner1 :=
        if best0.rtt.value < 0 then inner.set 0 bestSeeded else inner
      if candidateRtt < currentBestRtt then
        ((inner1.set 0 cand).set candidate bestSeeded, true)
      else if 0 < candidateRtt ∧ currentBestRtt * 4 ≤ candidateRtt then
        if 60 < now - cand.lastActionTS then
          let sample := min (max (candidateRtt / 2) (currentBestRtt * 2)) candidateRtt
          (inner1.set candidate { cand with rtt := cand.rtt.add sample }, true)
        else (inner1, false)
      else (inner1, false)
    | _, _ => (inner, false)

/-- The single adjacent-swap pass at lines 182-189: for `i = 1 .. n-1`, swap
slots `i-1` and `i` whenever the left average is strictly larger, carrying the
larger element rightward. -/
def bubblePass : List ServerInfo → List ServerInfo
  | [] => []
  | [a] => [a]
  | a :: b :: rest =>
    if b.rtt.value < a.rtt.value then b :: bubblePass (a :: rest)
    else a :: bubblePass (b :: rest)

/-- Go `(serversInfo *ServersInfo) estimatorUpdate()` with the random draw and
the clock passed explicitly. -/
def estimatorUpdate (now : Rat) (inner : List ServerInfo) (candidate : Nat) :
    List ServerInfo :=
  let r := estimatorCore now inner candidate
  if r.2 then bubblePass r.1 else r.1

/-! ### route (`serversInfo.go` lines 228-285) -/

/-- External collaborators of `route`: stamp parsing
(`stamps.NewServerStampFromString`, successful parses only) and address
resolvability (`net.ResolveUDPAddr` / `net.ResolveTCPAddr` success). -/
structure RouteEnv where
  parseStamp : String → Option ServerStamp
  resolvesUDP : String → Bool
  resolvesTCP : String → Bool

/-- The relay-stamp selection chain of `route` (lines 245-268), given the
drawn relay reference `relayName`: a parsable stamp wins; else a resolvable
host:port synthesizes a `DNSCryptRelay` stamp; else the relay registry is
scanned for the name and then the server registry is scanned (the Go code runs
the second loop unconditionally, so a server-registry match overwrites a
relay-registry match).  `none` is the `Undefined relay` error path.  The
empty-name check of line 246 is performed by `route` before calling this. -/
def relayCandidateStampFor (env : RouteEnv)
    (registeredRelays registeredServers : List RegisteredServer)
    (relayName : String) : Option ServerStamp :=
  match env.parseStamp relayName with
  | some relayStamp => some relayStamp
  | none =>
    if env.resolvesUDP relayName then
      some { proto := .dnsCryptRelay, serverAddrStr := relayName,
             providerName := "", path := "", hashes := [] }
    else
      let afterRelays :=
        match registeredRelays.find? (fun r => r.name == relayName) with
        | some r => some r.stamp
        | none => none
      match registeredServers.find? (fun r => r.name == relayName) with
      | some r => some r.stamp
      | none => afterRelays

/-- Result of `route`: no route declared (`nil, nil, nil`), an error, or the
resolved relay UDP/TCP addresses (modelled by the address strings handed to
the resolver). -/
inductive RouteResult where
  | noRoute
  | fail (e : String)
  | resolved (udpAddr tcpAddr : String)
deriving DecidableEq, Repr

/-- Go `route(proxy, name, stamp)`.  The routes map is an association list;
`choice` stands for the `rand.Intn(len(relayNames))` draw, taken modulo the
list length. -/
def route (env : RouteEnv) (routes : Option (List (String × List String)))
    (registeredRelays registeredServers : List RegisteredServer)
    (name : String) (choice : Nat) : RouteResult :=
  match routes with
  | none => .noRoute
  | some routesMap =>
    let relayNames? : Option (List String) :=
      match routesMap.find? (fun p => p.1 == name) with
      | some p => some p.2
      | none =>
        match routesMap.find? (fun p => p.1 == "*") with
        | some p => some p.2
        | none => none
    match relayNames? with
    | none => .noRoute
    | some relayNames =>
      let relayName :=
        if 0 < relayNames.length then
          relayNames.getD (choice % relayNames.length) ""
        else ""
      if relayName.length = 0 then .fail "empty relay list"
      else
        match relayCandidateStampFor env registeredRelays registeredServers
            relayName with
        | none => .fail "undefined relay"
        | some stamp =>
          if stamp.proto = .dnsCrypt ∨ stamp.proto = .dnsCryptRelay then
            if env.resolvesUDP stamp.serverAddrStr then
              if env.resolvesTCP stamp.serverAddrStr then
                .resolved stamp.serverAddrStr stamp.serverAddrStr
              else .fail "resolve tcp"
            else .fail "resolve udp"
          else .fail "invalid relay"

/-! ### fetchDoHServerInfo validation (`serversInfo.go` lines 355-398) -/

/-- Modelled from the spec: `MinDNSPacketSize` is declared elsewhere in the
repository; the spec's scenario S6 describes a 12-byte packet as "exactly
`MinDNSPacketSize`". -/
def MinDNSPacketSize : Nat := 12

/-- A peer certificate, carrying the SHA-256 digest of its
`RawTBSCertificate` bytes precomputed (the hash function is external to the
embedded code; `serversInfo.go` only compares the 32-byte digest against the
stamp pins). -/
structure Cert where
  tbsHash : List Nat
deriving DecidableEq, Repr

/-- The fields of `resp.TLS` (a `*tls.ConnectionState`) that the probe
validation reads. -/
structure TLSState where
  handshakeComplete : Bool
  peerCertificates : List Cert
deriving DecidableEq, Repr

/-- A successfully transported DoH probe response: its optional TLS state and
its body bytes. -/
structure DoHResp where
  tls : Option TLSState
  body : List Nat
deriving DecidableEq, Repr

/-- The pin-matching loops of lines 366-387: some peer certificate's TBS
digest equals some stamp pin of length 32 (pins of any other length are
skipped by the `len(hash) == len(wantedHash)` guard). -/
def certFound (peerCerts : List Cert) (hashes : List (List Nat)) : Bool :=
  peerCerts.any fun cert => hashes.any fun h => h.length == 32 && cert.tbsHash == h

/-- The accept/reject validation of `fetchDoHServerInfo` (lines 355-398),
starting from a transported response: require a completed TLS handshake;
reject when no pin matched and the pin set is non-empty; read the body capped
at `MaxHTTPBodyLength`; reject unless the length lies in
`[MinDNSPacketSize, MaxDNSPacketSize]` and the bytes at offsets 0, 1, 4, 5 are
`0xca`, `0xfe`, `0x00`, `0x01`.  The two byte-length caps are declared
elsewhere in the repository and are passed as parameters. -/
def fetchDoHServerInfoCheck (maxHTTPBodyLength maxDNSPacketSize : Nat)
    (hashes : List (List Nat)) (resp : DoHResp) : Except String Unit :=
  match resp.tls with
  | none => .error "TLS handshake failed"
  | some tls =>
    if tls.handshakeComplete = false then .error "TLS handshake failed"
    else if certFound tls.peerCertificates hashes = false ∧ 0 < hashes.length then
      .error "Certificate hash not found"
    else
      let respBody := resp.body.take maxHTTPBodyLength
      if respBody.length < MinDNSPacketSize ∨ maxDNSPacketSize < respBody.length
          ∨ respBody.getD 0 0 ≠ 0xca ∨ respBody.getD 1 0 ≠ 0xfe
          ∨ respBody.getD 4 0 ≠ 0x00 ∨ respBody.getD 5 0 ≠ 0x01 then
        .error "Webserver returned an unexpected response"
      else .ok ()

/-! ### Plugin pipeline (`plugins.go`) -/

/-- Go `PluginsAction` constants (`plugins.go` lines 16-22). -/
inductive PluginsAction where
  | actNone
  | forward
  | drop
  | reject
  | synth
deriving DecidableEq, Repr

/-- Go `PluginsReturnCode` constants (`plugins.go` lines 36-48). -/
inductive PluginsReturnCode where
  | pass
  | forward
  | drop
  | reject
  | synth
  | parseError
  | nxDomain
  | responseError
  | serverError
  | cloak
  | serverTimeout
deriving DecidableEq, Repr

/-- A parsed DNS message (`dns.Msg`): the embedded code only inspects the
number of questions; `payload` keeps the rest of the message opaque. -/
structure Msg where
  questionCount : Nat
  payload : Nat
deriving DecidableEq, Repr

/-- The fields of Go struct `PluginsState` (`plugins.go` line 64) that the
three stage drivers read or write.  `requestEnd` is an instant in seconds. -/
structure PluginsState where
  action : PluginsAction
  synthResponse : Option Msg
  questionMsg : Option Msg
  returnCode : PluginsReturnCode
  serverName : String
  requestEnd : Rat
deriving DecidableEq, Repr

/-- Outcome of one `plugin.Eval(pluginsState, msg)` call: the state and
message after the call (`Eval` mutates both through pointers) and the returned
error, if any. -/
structure PluginEvalResult where
  state : PluginsState
  msg : Msg
  err : Option String
deriving DecidableEq, Repr

/-- A policy module's `Eval`, the only capability the stage drivers invoke. -/
def Plugin : Type := PluginsState → Msg → PluginEvalResult

/-- Result of the module loop shared by `ApplyQueryPlugins` (lines 248-263)
and `ApplyResponsePlugins` (lines 295-311): the loop ran to completion or hit
the `action != Forward` break (`done`); a module's `Eval` errored, which sets
`action = Drop` and returns the error with the input packet (`evalErr`); or
the Reject synthesis errored, which returns a nil packet (`synthFail`). -/
inductive ChainResult where
  | done (st : PluginsState) (msg : Msg)
  | evalErr (st : PluginsState) (e : String)
  | synthFail (st : PluginsState) (e : String)
deriving DecidableEq, Repr

/-- Outcome of one iteration of the stage loop: the loop returns or breaks
with a `ChainResult` (`stop`), or it falls through to the next module with the
updated state and message (`go`). -/
inductive StepOut where
  | stop (r : ChainResult)
  | go (st2 : PluginsState) (msg2 : Msg)
deriving DecidableEq, Repr

/-- One iteration of the module loop shared by `ApplyQueryPlugins` and
`ApplyResponsePlugins`, with the refused-response synthesizer
`RefusedResponseFromMessage` (declared elsewhere in the repository) passed as
an oracle: call `Eval`; on error set `action = Drop` and return that error; if
`action == Reject`, synthesize a refused response from the current message and
store it in `synthResponse`, returning a nil packet if synthesis fails; break
out of the loop as soon as `action != Forward`. -/
def evalStep (synth : Msg → Except String Msg) (p : Plugin) (st : PluginsState)
    (msg : Msg) : StepOut :=
  let r := p st msg
  match r.err with
  | some e => .stop (.evalErr { r.state with action := .drop } e)
  | none =>
    let afterReject : Except String PluginsState :=
      if r.state.action = .reject then
        match synth r.msg with
        | .error e => .error e
        | .ok s => .ok { r.state with synthResponse := some s }
      else .ok r.state
    match afterReject with
    | .error e => .stop (.synthFail r.state e)
    | .ok st2 =>
      if st2.action = .forward then .go st2 r.msg
      else .stop (.done st2 r.msg)

/-- The module loop of the query and response stages (`plugins.go` lines
248-263 and 295-311 are the same loop): run `evalStep` on each module in
order until a step stops the stage or the modules run out. -/
def evalChain (synth : Msg → Except String Msg) :
    List Plugin → PluginsState → Msg → ChainResult
  | [], st, msg => .done st msg
  | p :: rest, st, msg =>
    match evalStep synth p st msg with
    | .stop r => r
    | .go st2 msg2 => evalChain synth rest st2 msg2

/-- A chain outcome after which the Go loop evaluates no further module:
any error outcome, or a `done` state whose action left `Forward`. -/
def chainStopped : ChainResult → Bool
  | .done st _ => st.action != .forward
  | .evalErr _ _ => true
  | .synthFail _ _ => true

/-- External collaborators of the stage drivers: DNS unpacking and packing
(`msg.Unpack`, `msg.PackBuffer`), the refused-response synthesizer, the
truncation-flag probe `HasTCFlag`, the response-code reader `Rcode`, and
`setMaxTTL` (all declared elsewhere in the repository). -/
structure PipelineEnv where
  unpack : List Nat → Option Msg
  pack : Msg → List Nat → Option (List Nat)
  synth : Msg → Except String Msg
  hasTCFlag : List Nat → Bool
  rcode : List Nat → Nat
  setMaxTTL : Msg → Nat → Msg

/-- Go `ApplyQueryPlugins` (lines 232-269).  Returns the final state, the
returned packet (`none` models a nil slice) and the returned error. -/
def ApplyQueryPlugins (env : PipelineEnv)
    (queryPlugins loggingPlugins : List Plugin) (st : PluginsState)
    (packet : List Nat) (serverName : String) :
    PluginsState × Option (List Nat) × Option String :=
  if queryPlugins.length = 0 ∧ loggingPlugins.length = 0 then (st, some packet, none)
  else
    let st := { st with serverName := serverName, action := .forward }
    match env.unpack packet with
    | none => (st, some packet, some "unpack error")
    | some msg =>
      if 1 < msg.questionCount then
        (st, some packet, some "Unexpected number of questions")
      else
        let st := { st with questionMsg := some msg }
        match evalChain env.synth queryPlugins st msg with
        | .evalErr st' e => (st', some packet, some e)
        | .synthFail st' e => (st', none, some e)
        | .done st' msg' =>
          match env.pack msg' packet with
          | some packet2 => (st', some packet2, none)
          | none => (st', some packet, some "pack error")

/-- The `switch Rcode(packet)` seeding at lines 283-292 (`dns.RcodeSuccess`,
`dns.RcodeNameError` and `dns.RcodeServerFailure` are 0, 3 and 2). -/
def seedReturnCode (rc : Nat) : PluginsReturnCode :=
  if rc = 0 then .pass
  else if rc = 3 then .nxDomain
  else if rc = 2 then .serverError
  else .responseError

/-- Go `ApplyResponsePlugins` (lines 271-320). -/
def ApplyResponsePlugins (env : PipelineEnv)
    (responsePlugins loggingPlugins : List Plugin) (st : PluginsState)
    (packet : List Nat) (ttl : Option Nat) :
    PluginsState × Option (List Nat) × Option String :=
  if responsePlugins.length = 0 ∧ loggingPlugins.length = 0 then
    (st, some packet, none)
  else
    let st := { st with action := .forward }
    match env.unpack packet with
    | none =>
      if MinDNSPacketSize ≤ packet.length ∧ env.hasTCFlag packet then
        (st, some packet, none)
      else (st, some packet, some "unpack error")
    | some msg =>
      let st := { st with returnCode := seedReturnCode (env.rcode packet) }
      match evalChain env.synth responsePlugins st msg with
      | .evalErr st' e => (st', some packet, some e)
      | .synthFail st' e => (st', none, some e)
      | .done st' msg' =>
        let msg2 := match ttl with
          | some t => env.setMaxTTL msg' t
          | none => msg'
        match env.pack msg2 packet with
        | some packet2 => (st', some packet2, none)
        | none => (st', some packet, some "pack error")

/-- The module loop of `ApplyLoggingPlugins` (lines 333-337): run each logging
module on the question message; the first error stops the loop and is
returned. -/
def loggingLoop : List Plugin → PluginsState → Msg → PluginsState × Option String
  | [], st, _ => (st, none)
  | p :: rest, st, msg =>
    let r := p st msg
    match r.err with
    | some e => (r.state, some e)
    | none => loggingLoop rest r.state r.msg

/-- Go `ApplyLoggingPlugins` (lines 322-339) with the clock passed explicitly:
no-op on an empty logging sequence; stamp `requestEnd`; error when
`questionMsg` is nil or carries more than one question; otherwise iterate the
logging modules. -/
def ApplyLoggingPlugins (loggingPlugins : List Plugin) (now : Rat)
    (st : PluginsState) : PluginsState × Option String :=
  if loggingPlugins.length = 0 then (st, none)
  else
    let st := { st with requestEnd := now }
    match st.questionMsg with
    | none => (st, some "Unexpected number of questions")
    | some questionMsg =>
      if 1 < questionMsg.questionCount then
        (st, some "Unexpected number of questions")
      else loggingLoop loggingPlugins st questionMsg

/-! ### Concrete sample data used by witnesses and counterexamples -/

/-- A sample DNSCrypt stamp. -/
def sampleStamp : ServerStamp :=
  ⟨.dnsCrypt, "192.0.2.1:443", "2.dnscrypt-cert.example", "", []⟩

/-- A sample DoH stamp. -/
def sampleStampB : ServerStamp :=
  ⟨.doH, "192.0.2.2:443", "doh.example", "/dns-query", []⟩

/-- A fetch oracle that always succeeds with a server named `a`. -/
def fetchOkA : FetchFn :=
  fun _ _ _ => .ok { name := "a", initialRtt := 10, rtt := Ewma.new, lastActionTS := 0 }

/-- A fetch oracle that fails for the name `a` and succeeds for any other
name. -/
def fetchFailAOkB : FetchFn :=
  fun n _ _ =>
    if n = "a" then .error "boom"
    else .ok { name := n, initialRtt := 7, rtt := Ewma.new, lastActionTS := 0 }

/-! ### Claim C1: registry name uniqueness -/

/-- The names in the registry after `registerServer`'s add-or-replace loop:
unchanged when the name was already present, extended by it otherwise. -/
theorem registerList_map_name (new : RegisteredServer) (l : List RegisteredServer) :
    (registerList new l).map RegisteredServer.name =
      if new.name ∈ l.map RegisteredServer.name then l.map RegisteredServer.name
      else l.map RegisteredServer.name ++ [new.name] := by
  induction l with
  | nil => simp [registerList]
  | cons old rest ih =>
    by_cases h : old.name = new.name
    · simp [registerList, h]
    · have hne : ¬ new.name = old.name := fun hh => h hh.symm
      simp only [registerList, if_neg h, List.map_cons, List.mem_cons, ih]
      by_cases hmem : new.name ∈ rest.map RegisteredServer.name
      · simp [hmem, hne]
      · simp [hmem, hne]

/-- Claim C1 counterexample: starting from an empty `ServersInfo`, register a
server named `a` and run one successful `refresh`.  `refreshServer` checks the
live pool, not the registry, before its defensive append, so the registry ends
with two entries named `a` — the claimed per-name uniqueness of the registry
is violated by this register-then-refresh sequence. -/
theorem C1_counterexample :
    (refresh fetchOkA (registerServer ⟨[], []⟩ "a" sampleStamp)).map
        (fun r => r.1.registeredServers.map RegisteredServer.name) = some ["a", "a"]
    ∧ ¬ (["a", "a"] : List String).Nodup := by
  exact ⟨by decide, by decide⟩

/-- Claim C1, amended: `registerServer` does preserve registry name
uniqueness (add-or-replace by name), but a successful `refreshServer` appends
`{name, stamp}` to the registry exactly when the *live pool* lacked an entry
of that name — the registry itself is never consulted — so refreshing a
registered name that is not yet live duplicates its registry entry. -/
theorem C1_amended :
    (∀ (si : ServersInfoS) (name : String) (stamp : ServerStamp),
      (si.registeredServers.map RegisteredServer.name).Nodup →
      ((registerServer si name stamp).registeredServers.map RegisteredServer.name).Nodup)
    ∧ (∀ (fetch : FetchFn) (si : ServersInfoS) (name : String) (stamp : ServerStamp)
        (si' : ServersInfoS),
      refreshServer fetch si name stamp = some (si', none) →
      si'.registeredServers = si.registeredServers ++
        (if hasName si.inner name then [] else [⟨name, stamp, ""⟩])) := by
  constructor
  · intro si name stamp hnd
    show ((registerList ⟨name, stamp, ""⟩ si.registeredServers).map
      RegisteredServer.name).Nodup
    rw [registerList_map_name]
    by_cases hmem : name ∈ si.registeredServers.map RegisteredServer.name
    · simpa [hmem] using hnd
    · simp only [hmem, if_false, if_neg, not_false_iff]
      simp [List.nodup_append, hnd, hmem]
  · intro fetch si name stamp si' h
    cases hf : fetch name stamp (!hasName si.inner name) with
    | error e => simp [refreshServer, hf] at h
    | ok srv =>
      by_cases hn : name ≠ srv.name
      · simp [refreshServer, hf, hn] at h
      · simp only [refreshServer, hf, if_neg hn] at h
        by_cases hl : hasName si.inner name
        · rw [if_pos hl] at h
          obtain ⟨h1, -⟩ := Prod.ext_iff.mp (Option.some.inj h).symm
          subst h1
          simp [hl]
        · rw [if_neg hl] at h
          obtain ⟨h1, -⟩ := Prod.ext_iff.mp (Option.some.inj h).symm
          subst h1
          simp [hl]

/-- Witness for the amended claim C1, at concrete inputs. -/
theorem C1_amended_witness :
    ((registerServer ⟨[], [⟨"b", sampleStampB, ""⟩]⟩ "a" sampleStamp).registeredServers.map
        RegisteredServer.name).Nodup
    ∧ ((⟨[⟨"a", 10, ⟨10⟩, 0⟩], [⟨"a", sampleStamp, ""⟩]⟩ : ServersInfoS).registeredServers =
        (⟨[], []⟩ : ServersInfoS).registeredServers ++
          (if hasName (⟨[], []⟩ : ServersInfoS).inner "a" then []
           else [⟨"a", sampleStamp, ""⟩])) :=
  ⟨C1_amended.1 ⟨[], [⟨"b", sampleStampB, ""⟩]⟩ "a" sampleStamp (by decide),
   C1_amended.2 fetchOkA ⟨[], []⟩ "a" sampleStamp
     ⟨[⟨"a", 10, ⟨10⟩, 0⟩], [⟨"a", sampleStamp, ""⟩]⟩ (by decide)⟩

/-! ### Claim C2: refresh error stickiness -/

/-- Claim C2 counterexample: a registry of two servers where the attempt for
`a` fails and the attempt for `b` succeeds.  `refresh` reassigns its error
variable on every attempt, so it returns `(1, nil)` — the earlier failure is
cleared by the later success, contradicting the claimed sticky last error. -/
theorem C2_counterexample :
    fetchFailAOkB "a" sampleStamp true = .error "boom"
    ∧ (refresh fetchFailAOkB ⟨[], [⟨"a", sampleStamp, ""⟩, ⟨"b", sampleStampB, ""⟩]⟩).map
        (fun r => (r.2.1, r.2.2)) = some (1, none) := by
  exact ⟨rfl, by decide⟩

/-- Claim C2, amended: the error returned by the refresh loop is exactly the
error of the *final* per-server attempt — `nil` when the final attempt
succeeded, regardless of earlier failures.  Extending any completed loop by
one more registered server makes the result error that last attempt's
error. -/
theorem C2_amended (fetch : FetchFn) (rs : List RegisteredServer)
    (r : RegisteredServer) (si : ServersInfoS) (live : Nat) (err : Option String)
    (si1 : ServersInfoS) (n1 : Nat) (e1 : Option String)
    (h : refreshLoop fetch rs si live err = some (si1, n1, e1)) :
    refreshLoop fetch (rs ++ [r]) si live err =
      match refreshServer fetch si1 r.name r.stamp with
      | none => none
      | some (si2, some e2) => some (si2, n1, some e2)
      | some (si2, none) => some (si2, n1 + 1, none) := by
  induction rs generalizing si live err with
  | nil =>
    simp only [refreshLoop, Option.some_inj] at h
    obtain ⟨h1, h2⟩ := Prod.ext_iff.mp h
    obtain ⟨h3, h4⟩ := Prod.ext_iff.mp h2
    subst h1; subst h3; subst h4
    have hstep : refreshLoop fetch ([] ++ [r]) si live err =
        match refreshServer fetch si r.name r.stamp with
        | none => none
        | some (si2, some e2) => refreshLoop fetch [] si2 live (some e2)
        | some (si2, none) => refreshLoop fetch [] si2 (live + 1) none := rfl
    rw [hstep]
    cases hh : refreshServer fetch si r.name r.stamp with
    | none => rfl
    | some p =>
      obtain ⟨si2, e2⟩ := p
      cases e2 <;> rfl
  | cons head tail ih =>
    have hstep : refreshLoop fetch ((head :: tail) ++ [r]) si live err =
        match refreshServer fetch si head.name head.stamp with
        | none => none
        | some (si2, some e2) => refreshLoop fetch (tail ++ [r]) si2 live (some e2)
        | some (si2, none) => refreshLoop fetch (tail ++ [r]) si2 (live + 1) none := rfl
    have hstep2 : refreshLoop fetch (head :: tail) si live err =
        match refreshServer fetch si head.name head.stamp with
        | none => none
        | some (si2, some e2) => refreshLoop fetch tail si2 live (some e2)
        | some (si2, none) => refreshLoop fetch tail si2 (live + 1) none := rfl
    rw [hstep2] at h
    rw [hstep]
    cases hh : refreshServer fetch si head.name head.stamp with
    | none => rw [hh] at h; simp at h
    | some p =>
      obtain ⟨si2, e2⟩ := p
      rw [hh] at h
      cases e2 with
      | none => exact ih _ _ _ h
      | some e => exact ih _ _ _ h

/-- Witness for the amended claim C2: a failing attempt for `a` followed by a
registered `b`; the loop's error is whatever the final attempt for `b`
returns. -/
theorem C2_amended_witness :
    refreshLoop fetchFailAOkB ([⟨"a", sampleStamp, ""⟩] ++ [⟨"b", sampleStampB, ""⟩])
        ⟨[], []⟩ 0 none =
      match refreshServer fetchFailAOkB ⟨[], []⟩ "b" sampleStampB with
      | none => none
      | some (si2, some e2) => some (si2, 0, some e2)
      | some (si2, none) => some (si2, 0 + 1, none) :=
  C2_amended fetchFailAOkB [⟨"a", sampleStamp, ""⟩] ⟨"b", sampleStampB, ""⟩
    ⟨[], []⟩ 0 none ⟨[], []⟩ 0 (some "boom") (by decide)

/-! ### Claim C8: refreshServer is atomic on failure -/

/-- Claim C8: when `fetchServerInfo` fails, `refreshServer` returns that very
error and the `ServersInfo` state — live pool and registry alike — is exactly
the state before the call; in particular a previously live entry for the name
is retained unchanged. -/
theorem C8_refreshServer_atomic (fetch : FetchFn) (si : ServersInfoS)
    (name : String) (stamp : ServerStamp) (e : String)
    (h : fetch name stamp (!hasName si.inner name) = .error e) :
    refreshServer fetch si name stamp = some (si, some e) := by
  simp [refreshServer, h]

/-- Witness for claim C8 at concrete inputs: the failing fetch for `a` leaves
a populated state untouched. -/
theorem C8_refreshServer_atomic_witness :
    refreshServer fetchFailAOkB ⟨[⟨"a", 10, ⟨10⟩, 0⟩], [⟨"a", sampleStamp, ""⟩]⟩
        "a" sampleStamp =
      some (⟨[⟨"a", 10, ⟨10⟩, 0⟩], [⟨"a", sampleStamp, ""⟩]⟩, some "boom") :=
  C8_refreshServer_atomic fetchFailAOkB ⟨[⟨"a", 10, ⟨10⟩, 0⟩], [⟨"a", sampleStamp, ""⟩]⟩
    "a" sampleStamp "boom" rfl

/-! ### Claim C5: the live pool is stable-sorted by initialRtt after refresh -/

/-- Membership in a stable insertion is membership in the inserted element or
the original list. -/
theorem mem_insertByRtt {x a : ServerInfo} {l : List ServerInfo} :
    x ∈ insertByRtt a l ↔ x = a ∨ x ∈ l := by
  induction l with
  | nil => simp [insertByRtt]
  | cons b t ih =>
    simp only [insertByRtt]
    split
    · simp only [List.mem_cons, ih]
      tauto
    · simp [List.mem_cons]

/-- Stable insertion preserves sortedness by `initialRtt`. -/
theorem pairwise_insertByRtt {a : ServerInfo} {l : List ServerInfo}
    (h : l.Pairwise fun u v => u.initialRtt ≤ v.initialRtt) :
    (insertByRtt a l).Pairwise fun u v => u.initialRtt ≤ v.initialRtt := by
  induction l with
  | nil => simp [insertByRtt]
  | cons b t ih =>
    obtain ⟨hb, ht⟩ := List.pairwise_cons.mp h
    simp only [insertByRtt]
    split
    · rename_i hlt
      refine List.pairwise_cons.mpr ⟨?_, ih ht⟩
      intro x hx
      rcases mem_insertByRtt.mp hx with rfl | hxl
      · exact le_of_lt hlt
      · exact hb x hxl
    · rename_i hge
      refine List.pairwise_cons.mpr ⟨?_, h⟩
      intro x hx
      rcases List.mem_cons.mp hx with rfl | hxl
      · omega
      · exact le_trans (by omega) (hb x hxl)

/-- The embedded stable sort produces a pool sorted by ascending
`initialRtt`. -/
theorem sorted_stableSortInner (l : List ServerInfo) :
    (stableSortInner l).Pairwise fun u v => u.initialRtt ≤ v.initialRtt := by
  induction l with
  | nil => simp [stableSortInner]
  | cons x xs ih => exact pairwise_insertByRtt ih

/-- Stability of one insertion: restricted to any single `initialRtt` value,
inserting `a` prepends it (when it carries that value) and otherwise leaves
the restriction unchanged. -/
theorem filter_insertByRtt (v : Int) (a : ServerInfo) (l : List ServerInfo) :
    (insertByRtt a l).filter (fun s => s.initialRtt == v) =
      if a.initialRtt = v then a :: l.filter (fun s => s.initialRtt == v)
      else l.filter (fun s => s.initialRtt == v) := by
  induction l with
  | nil =>
    by_cases hav : a.initialRtt = v
    · simp [insertByRtt, hav]
    · simp [insertByRtt, hav]
  | cons b t ih =>
    simp only [insertByRtt]
    split
    · rename_i hlt
      by_cases hav : a.initialRtt = v
      · have hbv : ¬ b.initialRtt = v := by omega
        simp [List.filter_cons, hav, hbv, ih]
      · simp [List.filter_cons, hav, ih]
    · by_cases hav : a.initialRtt = v
      · simp [List.filter_cons, hav]
      · simp [List.filter_cons, hav]

/-- Stability of the embedded stable sort: the sublist of servers holding any
fixed `initialRtt` value is unchanged by sorting. -/
theorem filter_stableSortInner (v : Int) (l : List ServerInfo) :
    (stableSortInner l).filter (fun s => s.initialRtt == v) =
      l.filter (fun s => s.initialRtt == v) := by
  induction l with
  | nil => rfl
  | cons x xs ih =>
    simp only [stableSortInner, filter_insertByRtt, List.filter_cons, ih]
    by_cases hx : x.initialRtt = v
    · simp [hx]
    · simp [hx]

/-- Claim C5: whatever the per-server outcomes were, `refresh` ends by
replacing the live pool with its stable sort by ascending `initialRtt`: the
result is sorted, and servers with equal `initialRtt` keep their relative
pre-sort order (their restriction to each rtt value is unchanged). -/
theorem C5_refresh_sorted (fetch : FetchFn) (si mid : ServersInfoS) (live : Nat)
    (err : Option String)
    (h : refreshLoop fetch si.registeredServers si 0 none = some (mid, live, err)) :
    refresh fetch si = some ({ mid with inner := stableSortInner mid.inner }, live, err)
    ∧ (stableSortInner mid.inner).Pairwise (fun u v => u.initialRtt ≤ v.initialRtt)
    ∧ ∀ v : Int, (stableSortInner mid.inner).filter (fun s => s.initialRtt == v) =
        mid.inner.filter (fun s => s.initialRtt == v) := by
  refine ⟨?_, sorted_stableSortInner _, fun v => filter_stableSortInner v _⟩
  rw [refresh, h]

/-- Witness for claim C5: a pool of two live servers with out-of-order
`initialRtt` values and an empty registry; `refresh` sorts the pool. -/
theorem C5_refresh_sorted_witness :
    refresh fetchOkA ⟨[⟨"x", 5, ⟨5⟩, 0⟩, ⟨"y", 3, ⟨3⟩, 0⟩], []⟩ =
      some (⟨stableSortInner [⟨"x", 5, ⟨5⟩, 0⟩, ⟨"y", 3, ⟨3⟩, 0⟩], []⟩, 0, none)
    ∧ (stableSortInner [⟨"x", 5, ⟨5⟩, 0⟩, ⟨"y", 3, ⟨3⟩, 0⟩]).Pairwise
        (fun u v => u.initialRtt ≤ v.initialRtt)
    ∧ (stableSortInner [⟨"x", 5, ⟨5⟩, 0⟩, ⟨"y", 3, ⟨3⟩, 0⟩]).filter
        (fun s => s.initialRtt == 3) =
      ([⟨"x", 5, ⟨5⟩, 0⟩, ⟨"y", 3, ⟨3⟩, 0⟩] : List ServerInfo).filter
        (fun s => s.initialRtt == 3) :=
  ⟨(C5_refresh_sorted fetchOkA ⟨[⟨"x", 5, ⟨5⟩, 0⟩, ⟨"y", 3, ⟨3⟩, 0⟩], []⟩
      ⟨[⟨"x", 5, ⟨5⟩, 0⟩, ⟨"y", 3, ⟨3⟩, 0⟩], []⟩ 0 none rfl).1,
   (C5_refresh_sorted fetchOkA ⟨[⟨"x", 5, ⟨5⟩, 0⟩, ⟨"y", 3, ⟨3⟩, 0⟩], []⟩
      ⟨[⟨"x", 5, ⟨5⟩, 0⟩, ⟨"y", 3, ⟨3⟩, 0⟩], []⟩ 0 none rfl).2.1,
   (C5_refresh_sorted fetchOkA ⟨[⟨"x", 5, ⟨5⟩, 0⟩, ⟨"y", 3, ⟨3⟩, 0⟩], []⟩
      ⟨[⟨"x", 5, ⟨5⟩, 0⟩, ⟨"y", 3, ⟨3⟩, 0⟩], []⟩ 0 none rfl).2.2 3⟩


/-! ### Claims C3 and C4: the estimator's second-chance update -/

/-- The bounded second-chance sample `MinF(MaxF(cRtt/2, bRtt*2), cRtt)` of
`serversInfo.go` line 177. -/
def scSample (cRtt bRtt : Rat) : Rat := min (max (cRtt / 2) (bRtt * 2)) cRtt

/-- A candidate server after the second-chance update: the bounded sample fed
(`Add`) into its moving average. -/
def scApply (cand best : ServerInfo) : ServerInfo :=
  { cand with rtt := cand.rtt.add (scSample cand.rtt.value best.rtt.value) }

/-- Unfolding of `estimatorCore` on the second-chance path: when the candidate
index is nonzero, the index-0 average is nonnegative (no seeding), the
candidate's average is positive and at least four times the best, and the
candidate's last action is more than sixty seconds old, the pool update feeds
the bounded sample into the candidate's average and sets the partial-sort
flag. -/
theorem estimatorCore_secondChance (now : Rat) (inner : List ServerInfo)
    (candidate : Nat) (cand best : ServerInfo)
    (hc0 : candidate ≠ 0) (hcand : inner[candidate]? = some cand)
    (hbest : inner[0]? = some best)
    (hpos : 0 < cand.rtt.value) (hbnn : 0 ≤ best.rtt.value)
    (hratio : best.rtt.value * 4 ≤ cand.rtt.value)
    (htime : 60 < now - cand.lastActionTS) :
    estimatorCore now inner candidate =
      (inner.set candidate (scApply cand best), true) := by
  have hseed : ¬ best.rtt.value < 0 := not_lt.mpr hbnn
  have hswap : ¬ cand.rtt.value < best.rtt.value := by
    intro hlt
    linarith
  simp [estimatorCore, hcand, hbest, hc0, hseed, hswap, hpos, hratio, htime,
    scApply, scSample]

/-- Unfolding of `estimatorCore` when the index-0 average holds the negative
"no measurement" sentinel: the average is seeded with the candidate's value
and, for a candidate with positive average, neither the swap nor the
second-chance branch can fire (the seeded comparison pits the candidate's
value against itself). -/
theorem estimatorCore_seeded (now : Rat) (inner : List ServerInfo)
    (candidate : Nat) (cand best : ServerInfo)
    (hc0 : candidate ≠ 0) (hcand : inner[candidate]? = some cand)
    (hbest : inner[0]? = some best)
    (hpos : 0 < cand.rtt.value) (hb : best.rtt.value < 0) :
    estimatorCore now inner candidate =
      (inner.set 0 { best with rtt := best.rtt.set cand.rtt.value }, false) := by
  have h1 : ¬ cand.rtt.value < cand.rtt.value := lt_irrefl _
  have h2 : ¬ (0 < cand.rtt.value ∧ cand.rtt.value * 4 ≤ cand.rtt.value) := by
    rintro ⟨hp, hle⟩
    linarith
  simp [estimatorCore, hcand, hbest, hc0, hb, h1, h2]

/-- A laggard candidate: EWMA value 100, last action at instant 0. -/
def estSlow : ServerInfo := ⟨"slow", 100, ⟨100⟩, 0⟩

/-- The preferred server: EWMA value 10. -/
def estFast : ServerInfo := ⟨"fast", 10, ⟨10⟩, 0⟩

/-- Claim C3 counterexample: pool `[fast, slow]` with EWMA values 10 and 100,
candidate index 1 at instant 100 (more than sixty seconds after the last
action).  The claimed post-update value is `min(max(100/2, 2*10), 100) = 50`,
but the code *feeds the sample into* the moving average (`Add`, not `Set`),
so the candidate's EWMA becomes `(100*9 + 50)/10 = 95`, not 50. -/
theorem C3_counterexample :
    (((estimatorCore 100 [estFast, estSlow] 1).1)[1]?).map (fun s => s.rtt.value)
        = some 95
    ∧ min (max ((100 : Rat) / 2) (10 * 2)) 100 = 50
    ∧ (95 : Rat) ≠ 50 := by
  have h := estimatorCore_secondChance 100 [estFast, estSlow] 1 estSlow estFast
    (by norm_num) rfl rfl (by norm_num [estSlow]) (by norm_num [estFast])
    (by norm_num [estSlow, estFast]) (by norm_num [estSlow])
  rw [h]
  refine ⟨?_, ?_, by norm_num⟩
  · simp only [List.getElem?_set_self']
    norm_num [scApply, scSample, Ewma.add, estSlow, estFast, min_def, max_def,
      Function.const]
  · norm_num [min_def, max_def]

/-- Claim C3, amended: under the second-chance conditions (candidate nonzero,
`cRtt > 0`, `cRtt ≥ 4*bRtt`, more than sixty seconds since the candidate's
last action, and a nonnegative `bRtt`, so that the branch actually fires), the
candidate's entry immediately after the update carries its old moving average
with the sample `min(max(cRtt/2, 2*bRtt), cRtt)` *fed into it* — one Brown
EWMA step from `cRtt` toward the bounded sample — rather than being set to the
sample itself. -/
theorem C3_amended (now : Rat) (inner : List ServerInfo) (candidate : Nat)
    (cand best : ServerInfo)
    (hc0 : candidate ≠ 0) (hcand : inner[candidate]? = some cand)
    (hbest : inner[0]? = some best)
    (hpos : 0 < cand.rtt.value) (hbnn : 0 ≤ best.rtt.value)
    (hratio : best.rtt.value * 4 ≤ cand.rtt.value)
    (htime : 60 < now - cand.lastActionTS) :
    ((estimatorCore now inner candidate).1)[candidate]? = some (scApply cand best)
    ∧ (scApply cand best).rtt.value =
        (cand.rtt.value * 9 + scSample cand.rtt.value best.rtt.value) / 10 := by
  rw [estimatorCore_secondChance now inner candidate cand best hc0 hcand hbest
    hpos hbnn hratio htime]
  constructor
  · simp [List.getElem?_set_self', hcand, Function.const]
  · rfl

/-- Witness for the amended claim C3 at the concrete two-server pool. -/
theorem C3_amended_witness :
    ((estimatorCore 100 [estFast, estSlow] 1).1)[1]? = some (scApply estSlow estFast)
    ∧ (scApply estSlow estFast).rtt.value =
        (estSlow.rtt.value * 9 + scSample estSlow.rtt.value estFast.rtt.value) / 10 :=
  C3_amended 100 [estFast, estSlow] 1 estSlow estFast (by norm_num) rfl rfl
    (by norm_num [estSlow]) (by norm_num [estFast])
    (by norm_num [estSlow, estFast]) (by norm_num [estSlow])

/-- Claim C4: whenever the second-chance conditions of `estimatorUpdate` hold
(candidate nonzero, `cRtt > 0`, `cRtt ≥ 4*bRtt`, last action more than sixty
seconds old), the candidate's EWMA value after the update lies in the closed
interval `[2*bRtt, cRtt]` and never exceeds its pre-update value `cRtt`. -/
theorem C4_secondChance_bounds (now : Rat) (inner : List ServerInfo)
    (candidate : Nat) (cand best : ServerInfo)
    (hc0 : candidate ≠ 0) (hcand : inner[candidate]? = some cand)
    (hbest : inner[0]? = some best)
    (hpos : 0 < cand.rtt.value)
    (hratio : best.rtt.value * 4 ≤ cand.rtt.value)
    (htime : 60 < now - cand.lastActionTS) :
    ∃ s, ((estimatorCore now inner candidate).1)[candidate]? = some s
      ∧ 2 * best.rtt.value ≤ s.rtt.value
      ∧ s.rtt.value ≤ cand.rtt.value := by
  by_cases hb : best.rtt.value < 0
  · refine ⟨cand, ?_, by linarith, le_refl _⟩
    rw [estimatorCore_seeded now inner candidate cand best hc0 hcand hbest hpos hb]
    simpa [List.getElem?_set_ne (Ne.symm hc0)] using hcand
  · push_neg at hb
    have hval : (scApply cand best).rtt.value =
        (cand.rtt.value * 9 + scSample cand.rtt.value best.rtt.value) / 10 := rfl
    have hs1 : 2 * best.rtt.value ≤ scSample cand.rtt.value best.rtt.value := by
      apply le_min
      · exact le_trans (by linarith) (le_max_right _ _)
      · linarith
    have hs2 : scSample cand.rtt.value best.rtt.value ≤ cand.rtt.value :=
      min_le_right _ _
    refine ⟨scApply cand best, ?_, ?_, ?_⟩
    · rw [estimatorCore_secondChance now inner candidate cand best hc0 hcand hbest
        hpos hb hratio htime]
      simp [List.getElem?_set_self', hcand, Function.const]
    · rw [hval, le_div_iff₀ (by norm_num : (0 : Rat) < 10)]
      linarith
    · rw [hval, div_le_iff₀ (by norm_num : (0 : Rat) < 10)]
      linarith

/-- Witness for claim C4 at the concrete two-server pool. -/
theorem C4_secondChance_bounds_witness :
    ∃ s, ((estimatorCore 100 [estFast, estSlow] 1).1)[1]? = some s
      ∧ 2 * estFast.rtt.value ≤ s.rtt.value
      ∧ s.rtt.value ≤ estSlow.rtt.value :=
  C4_secondChance_bounds 100 [estFast, estSlow] 1 estSlow estFast (by norm_num)
    rfl rfl (by norm_num [estSlow]) (by norm_num [estSlow, estFast])
    (by norm_num [estSlow])

/-! ### Claim C6: relay registry precedence in route -/

/-- A relay-registry stamp for relay resolution examples. -/
def relayStampR : ServerStamp := ⟨.dnsCryptRelay, "relay.example:443", "", "", []⟩

/-- A server-registry stamp carrying a different address. -/
def serverStampS : ServerStamp := ⟨.dnsCrypt, "server.example:443", "prov", "", []⟩

/-- A route environment in which no relay reference parses as a stamp and no
reference resolves as a host:port. -/
def envNoParse : RouteEnv := ⟨fun _ => none, fun _ => false, fun _ => false⟩

/-- Claim C6 counterexample: the name `r` is present in *both* registries with
different stamps; the stamp-selection chain of `route` returns the *server*
registry's stamp, because the Go code scans the server registry
unconditionally after the relay registry and overwrites the relay match —
the relay registry does not take precedence. -/
theorem C6_counterexample :
    relayCandidateStampFor envNoParse [⟨"r", relayStampR, ""⟩]
        [⟨"r", serverStampS, ""⟩] "r" = some serverStampS
    ∧ serverStampS ≠ relayStampR := by
  exact ⟨rfl, by decide⟩

/-- Claim C6, amended: when the relay reference neither parses as a stamp nor
resolves as a host:port, the registries decide — but with the *server*
registry taking precedence: the relay registry's stamp is used only when no
server-registry entry carries the name. -/
theorem C6_amended (env : RouteEnv) (relays servers : List RegisteredServer)
    (relayName : String)
    (hp : env.parseStamp relayName = none)
    (hr : env.resolvesUDP relayName = false) :
    relayCandidateStampFor env relays servers relayName =
      match servers.find? (fun r => r.name == relayName) with
      | some r => some r.stamp
      | none => (relays.find? (fun r => r.name == relayName)).map
          RegisteredServer.stamp := by
  simp only [relayCandidateStampFor, hp, hr, Bool.false_eq_true, if_false]
  cases hs : servers.find? (fun r => r.name == relayName) with
  | some r => simp
  | none =>
    cases hrel : relays.find? (fun r => r.name == relayName) with
    | some r => simp
    | none => simp

/-- Witness for the amended claim C6: with an empty server registry the relay
registry's stamp is the one selected. -/
theorem C6_amended_witness :
    relayCandidateStampFor envNoParse [⟨"r", relayStampR, ""⟩] [] "r" =
      match ([] : List RegisteredServer).find? (fun r => r.name == "r") with
      | some r => some r.stamp
      | none => (([⟨"r", relayStampR, ""⟩] : List RegisteredServer).find?
          (fun r => r.name == "r")).map RegisteredServer.stamp :=
  C6_amended envNoParse [⟨"r", relayStampR, ""⟩] [] "r" rfl rfl

/-! ### Claim C7: DoH probe acceptance -/

/-- The well-formed 12-byte probe reply: id `0xcafe`, flag bytes `0x00 0x01`. -/
def probeReply12 : List Nat :=
  [0xca, 0xfe, 0x00, 0x00, 0x00, 0x01, 0x00, 0x00, 0x00, 0x00, 0x00, 0x00]

/-- Claim C7: `fetchDoHServerInfo` accepts a transported probe response if and
only if the TLS handshake completed, the pin set is empty or some peer
certificate's TBS digest equals a 32-byte stamp pin, and the body read (capped
at `MaxHTTPBodyLength`) has length in `[MinDNSPacketSize, MaxDNSPacketSize]`
with bytes `0xca 0xfe` at offsets 0-1 and `0x00 0x01` at offsets 4-5; in
particular a valid response of exactly `MinDNSPacketSize` bytes is accepted,
one byte shorter is rejected, and an empty pin set accepts any valid TLS
response. -/
theorem C7_fetchDoH_accept :
    (∀ (maxB maxD : Nat) (hashes : List (List Nat)) (resp : DoHResp),
      fetchDoHServerInfoCheck maxB maxD hashes resp = .ok () ↔
        ∃ tls, resp.tls = some tls ∧ tls.handshakeComplete = true
          ∧ (hashes = [] ∨ ∃ cert ∈ tls.peerCertificates, ∃ h ∈ hashes,
              h.length = 32 ∧ cert.tbsHash = h)
          ∧ MinDNSPacketSize ≤ (resp.body.take maxB).length
          ∧ (resp.body.take maxB).length ≤ maxD
          ∧ (resp.body.take maxB).getD 0 0 = 0xca
          ∧ (resp.body.take maxB).getD 1 0 = 0xfe
          ∧ (resp.body.take maxB).getD 4 0 = 0x00
          ∧ (resp.body.take maxB).getD 5 0 = 0x01)
    ∧ fetchDoHServerInfoCheck 1000000 4096 [] ⟨some ⟨true, []⟩, probeReply12⟩ = .ok ()
    ∧ fetchDoHServerInfoCheck 1000000 4096 [] ⟨some ⟨true, []⟩, probeReply12.take 11⟩ =
        .error "Webserver returned an unexpected response" := by
  refine ⟨fun maxB maxD hashes resp => ?_, rfl, rfl⟩
  cases htls : resp.tls with
  | none => simp [fetchDoHServerInfoCheck, htls]
  | some tls =>
    cases hhs : tls.handshakeComplete with
    | false => simp [fetchDoHServerInfoCheck, htls, hhs]
    | true =>
      have hpin : (¬ (certFound tls.peerCertificates hashes = false
            ∧ 0 < hashes.length)) ↔
          (hashes = [] ∨ ∃ cert ∈ tls.peerCertificates, ∃ h ∈ hashes,
            h.length = 32 ∧ cert.tbsHash = h) := by
        rw [not_and_or]
        constructor
        · rintro (hcf | hlen)
          · right
            have hct : certFound tls.peerCertificates hashes = true := by
              revert hcf
              cases certFound tls.peerCertificates hashes <;> simp
            simpa [certFound, List.any_eq_true, Bool.and_eq_true,
              beq_iff_eq] using hct
          · left
            exact List.length_eq_zero.mp (by omega)
        · rintro (hnil | hex)
          · right
            simp [hnil]
          · left
            intro hcf
            have hct : certFound tls.peerCertificates hashes = true := by
              simpa [certFound, List.any_eq_true, Bool.and_eq_true,
                beq_iff_eq] using hex
            rw [hct] at hcf
            cases hcf
      by_cases hc : certFound tls.peerCertificates hashes = false
          ∧ 0 < hashes.length
      · constructor
        · intro h
          simp [fetchDoHServerInfoCheck, htls, hhs, if_pos hc] at h
        · rintro ⟨tls2, htls2, -, hpin2, -⟩
          obtain rfl := Option.some.inj htls2
          exact absurd hc (hpin.mpr hpin2)
      · simp only [fetchDoHServerInfoCheck, htls, hhs, if_neg hc]
        by_cases hbody : (resp.body.take maxB).length < MinDNSPacketSize
            ∨ maxD < (resp.body.take maxB).length
            ∨ (resp.body.take maxB).getD 0 0 ≠ 0xca
            ∨ (resp.body.take maxB).getD 1 0 ≠ 0xfe
            ∨ (resp.body.take maxB).getD 4 0 ≠ 0x00
            ∨ (resp.body.take maxB).getD 5 0 ≠ 0x01
        · rw [if_pos hbody]
          constructor
          · intro h
            exact Except.noConfusion h
          · rintro ⟨tls2, htls2, -, -, hb1, hb2, hb3, hb4, hb5, hb6⟩
            rcases hbody with h | h | h | h | h | h <;> omega
        · rw [if_neg hbody]
          push_neg at hbody
          obtain ⟨hb1, hb2, hb3, hb4, hb5, hb6⟩ := hbody
          exact iff_of_true rfl ⟨tls, rfl, hhs, hpin.mp hc, hb1, hb2, hb3, hb4,
            hb5, hb6⟩


/-! ### Claim C9: stage termination on a non-Forward action -/

/-- A step that falls through to the next module leaves the action at
`Forward`: every other action breaks the loop. -/
theorem evalStep_go_forward {synth : Msg → Except String Msg} {p : Plugin}
    {st st2 : PluginsState} {msg msg2 : Msg}
    (h : evalStep synth p st msg = .go st2 msg2) : st2.action = .forward := by
  simp only [evalStep] at h
  split at h
  · simp at h
  · split at h
    · simp at h
    · split at h
      · rename_i hfw
        injection h with h1 h2
        subst h1
        exact hfw
      · simp at h

/-- Claim C9: in the module loop shared by the query and response stages, once
the run over a non-empty prefix has stopped — a module's `Eval` errored (the
stage sets `action = Drop` and returns), the Reject synthesis failed, or the
loop broke because `action` left `Forward` — appending any further modules to
the stage's sequence leaves the outcome unchanged: no subsequent module is
evaluated. -/
theorem C9_chain_stops (synth : Msg → Except String Msg) (l1 l2 : List Plugin)
    (st : PluginsState) (msg : Msg) (hne : l1 ≠ [])
    (hstop : chainStopped (evalChain synth l1 st msg) = true) :
    evalChain synth (l1 ++ l2) st msg = evalChain synth l1 st msg := by
  induction l1 generalizing st msg with
  | nil => exact absurd rfl hne
  | cons p rest ih =>
    have hL : evalChain synth ((p :: rest) ++ l2) st msg =
        match evalStep synth p st msg with
        | .stop r => r
        | .go st2 msg2 => evalChain synth (rest ++ l2) st2 msg2 := rfl
    have hR : evalChain synth (p :: rest) st msg =
        match evalStep synth p st msg with
        | .stop r => r
        | .go st2 msg2 => evalChain synth rest st2 msg2 := rfl
    rw [hR] at hstop
    rw [hL, hR]
    cases hs : evalStep synth p st msg with
    | stop r => rfl
    | go st2 msg2 =>
      rw [hs] at hstop
      cases hrest : rest with
      | nil =>
        subst hrest
        have hcontr : (st2.action != PluginsAction.forward) = true := hstop
        rw [evalStep_go_forward hs] at hcontr
        simp at hcontr
      | cons q qs =>
        subst hrest
        exact ih st2 msg2 (by simp) hstop

/-- A module whose `Eval` sets the action to Drop and succeeds. -/
def dropPlugin : Plugin := fun st m => ⟨{ st with action := .drop }, m, none⟩

/-- A module whose `Eval` changes nothing and succeeds. -/
def idPlugin : Plugin := fun st m => ⟨st, m, none⟩

/-- A synthesizer oracle that returns the message unchanged. -/
def synthId : Msg → Except String Msg := fun m => .ok m

/-- A per-request state at the start of a stage. -/
def stForward : PluginsState := ⟨.forward, none, none, .pass, "", 0⟩

/-- A one-question message. -/
def msgOneQ : Msg := ⟨1, 0⟩

/-- Witness for claim C9: after a module drops the query, an appended module
does not change the stage outcome. -/
theorem C9_chain_stops_witness :
    evalChain synthId ([dropPlugin] ++ [idPlugin]) stForward msgOneQ =
      evalChain synthId [dropPlugin] stForward msgOneQ :=
  C9_chain_stops synthId [dropPlugin] [idPlugin] stForward msgOneQ
    (by simp) (by decide)

/-! ### Claim C10: the logging stage's question check -/

/-- A state whose parsed question message carries zero questions. -/
def stZeroQ : PluginsState := ⟨.forward, none, some ⟨0, 0⟩, .pass, "", 0⟩

/-- Claim C10 counterexample: with a non-empty logging sequence and a parsed
question message carrying *zero* questions, `ApplyLoggingPlugins` does not
return an error — the Go guard only rejects `questionMsg == nil` or more than
one question, so a question count of zero (which differs from one) is
accepted and the modules run. -/
theorem C10_counterexample :
    (ApplyLoggingPlugins [idPlugin] 5 stZeroQ).2 = none
    ∧ stZeroQ.questionMsg = some ⟨0, 0⟩
    ∧ (⟨0, 0⟩ : Msg).questionCount ≠ 1 := by
  exact ⟨rfl, rfl, by decide⟩

/-- Claim C10, amended: when the logging sequence is non-empty,
`ApplyLoggingPlugins` stamps `requestEnd` and then errors exactly when the
parsed question message is absent or carries *more than one* question; a
message with zero or one question is accepted, and only then are the logging
modules iterated. -/
theorem C10_amended (plugins : List Plugin) (now : Rat) (st : PluginsState)
    (hne : plugins ≠ []) :
    (st.questionMsg = none →
      ApplyLoggingPlugins plugins now st =
        ({ st with requestEnd := now }, some "Unexpected number of questions"))
    ∧ (∀ m, st.questionMsg = some m → 1 < m.questionCount →
      ApplyLoggingPlugins plugins now st =
        ({ st with requestEnd := now }, some "Unexpected number of questions"))
    ∧ (∀ m, st.questionMsg = some m → m.questionCount ≤ 1 →
      ApplyLoggingPlugins plugins now st =
        loggingLoop plugins { st with requestEnd := now } m) := by
  have hlen : ¬ plugins.length = 0 := by
    simpa [List.length_eq_zero] using hne
  refine ⟨fun hq => ?_, fun m hq hgt => ?_, fun m hq hle => ?_⟩
  · simp [ApplyLoggingPlugins, hlen, hq]
  · simp [ApplyLoggingPlugins, hlen, hq, hgt]
  · simp [ApplyLoggingPlugins, hlen, hq, Nat.not_lt.mpr hle]

/-- Witness for the amended claim C10: the zero-question state is accepted and
handed to the module loop. -/
theorem C10_amended_witness :
    ApplyLoggingPlugins [idPlugin] 7 stZeroQ =
      loggingLoop [idPlugin] { stZeroQ with requestEnd := 7 } ⟨0, 0⟩ :=
  (C10_amended [idPlugin] 7 stZeroQ (by simp)).2.2 ⟨0, 0⟩ rfl (by norm_num)

end Dnscrypt
